import Mathlib

/-!
Verification of the `ologs` logging facade.

Shallow embedding of the three source files of the repository:

* `src/logger/v2/zap.go` (+ its companion file defining `Values` and the
  `Logger` interface): a zap-backed structured logging facade with
  context-scoped injection/retrieval (namespace `V2`),
* `src/unnamed/part_000` (package `logger`): the logrus-backed
  `ContextLogger` (namespace `LoggerPkg`),
* `src/logger/sentry.go`: the Sentry error-capture adapter (namespace
  `Sentry`).

Go maps are modelled as association lists over `String` keys; a map write
`m[k] = v` removes any previous binding of `k` and appends the new one, so
lookup (`getF`) has Go-map semantics (at most one binding per key after
writes through `setF`).  External collaborators (zap, logrus, Sentry) are
modelled only through the behavior the wrapped entry points are documented
to have: `zap.SugaredLogger.With` appends structured context to a new
child logger, `logrus.Entry.Fatal` logs and then exits the process,
`logrus.Entry.Panic` logs and then panics, `logrus.Logger.Printf` logs at
info level, and a logrus logger drops entries whose level is not enabled.
-/

namespace Ologs

/-- A Go `map[string]V`, as an association list. -/
abbrev Fields (V : Type) : Type := List (String × V)

/-- Go map lookup `m[k]` (first binding of the key, if any). -/
def getF {V : Type} : Fields V → String → Option V
  | [], _ => none
  | p :: rest, k => if p.1 = k then some p.2 else getF rest k

/-- Go map write `m[k] = x`: drop any old binding of `k`, append the new one. -/
def setF {V : Type} (m : Fields V) (k : String) (x : V) : Fields V :=
  m.filter (fun p => p.1 ≠ k) ++ [(k, x)]

/-- A Go `for k, v := range src { dst[k] = v }` copy loop, iterating in list
order. -/
def writeAll {V : Type} (dst : Fields V) : Fields V → Fields V
  | [] => dst
  | p :: rest => writeAll (setF dst p.1 p.2) rest

/-- The keys of a map. -/
def keysOf {V : Type} (m : Fields V) : List String := m.map Prod.fst

/-- Model of Go's `strings.ToLower`, restricted to ASCII case mapping (the
only case the source ever distinguishes). -/
def toLowerStr (s : String) : String := ⟨s.data.map Char.toLower⟩

namespace V2

/-! Definitions for `src/logger/v2` : the zap-backed facade. -/

/-- Values from the companion file of zap.go:
`type Values map[string]interface{}`. -/
abbrev Values (V : Type) : Type := Fields V

/-- Encoder choices for `zapcore.EncodeLevel` used by the source. -/
inductive LevelEncoder
  | capital
  | capitalColor
  | lowercase
  deriving DecidableEq, Repr

/-- Encoder choices for `zapcore.EncodeTime` used by the source. -/
inductive TimeEncoder
  | rfc3339
  | epoch
  deriving DecidableEq, Repr

/-- Encoder choices for `zapcore.EncodeCaller` used by the source. -/
inductive CallerEncoder
  | short
  deriving DecidableEq, Repr

/-- Model of `zapcore.EncoderConfig`, restricted to the fields the source
sets. -/
structure EncoderConfig where
  callerKey : String
  timeKey : String
  levelKey : String
  messageKey : String
  encodeLevel : LevelEncoder
  encodeTime : TimeEncoder
  encodeCaller : CallerEncoder
  deriving DecidableEq, Repr

/-- Model of `zap.Config`, restricted to the fields the source sets. -/
structure ZapConfig where
  encoding : String
  levelAt : String
  outputPaths : List String
  errorOutputPaths : List String
  disableStacktrace : Bool
  encoderConfig : EncoderConfig
  deriving DecidableEq, Repr

/-- Model of `type Option func(*zap.Config)` from zap.go. -/
abbrev ZapOption : Type := ZapConfig → ZapConfig

/-- Model of `SetFormat` (zap.go lines 24-34), verbatim: the local variable
`encoding` is fixed to `"console"` before the closure; the closure always
writes it into `c.Encoding` and sets the capital-color level encoder, and
only when `strings.ToLower(format) == "json"` additionally switches to the
lowercase level encoder and the epoch time encoder. -/
def SetFormat (format : String) : ZapOption :=
  let encoding := "console"
  fun c =>
    let c := { c with
      encoding := encoding,
      encoderConfig := { c.encoderConfig with encodeLevel := .capitalColor } }
    if toLowerStr format = "json" then
      { c with encoderConfig :=
        { c.encoderConfig with encodeLevel := .lowercase, encodeTime := .epoch } }
    else
      c

/-- Model of `newZapEncoderConfig` (zap.go lines 111-121). -/
def newZapEncoderConfig : EncoderConfig :=
  { callerKey := "caller"
    timeKey := "time"
    levelKey := "level"
    messageKey := "msg"
    encodeLevel := .capital
    encodeTime := .rfc3339
    encodeCaller := .short }

/-- The default `zap.Config` literal of `newZapLogger` (zap.go lines 92-99). -/
def defaultZapConfig : ZapConfig :=
  { encoding := "json"
    levelAt := "info"
    outputPaths := ["stderr"]
    errorOutputPaths := ["stderr"]
    disableStacktrace := true
    encoderConfig := newZapEncoderConfig }

/-- Model of `newZapLogger` (zap.go lines 90-109): apply each setter to the
default config in order.  `zap.AddCallerSkip(1)` and `zap.ReplaceGlobals`
affect only caller reporting and the zap package-global logger, not the
returned logger's configuration. -/
def newZapLogger (setters : List ZapOption) : ZapConfig :=
  setters.foldl (fun c s => s c) defaultZapConfig

/-- Model of `ZapLogger`: a `zap.SugaredLogger` is its build configuration
plus the structured context accumulated through `With` (an ordered
key/value list). -/
structure ZapLogger (V : Type) where
  config : ZapConfig
  fixedPairs : List (String ⊕ V)
  deriving DecidableEq, Repr

/-- Model of `NewZapLogger` (zap.go lines 125-127): a fresh logger has no
accumulated context. -/
def NewZapLogger (V : Type) (setters : List ZapOption) : ZapLogger V :=
  { config := newZapLogger setters, fixedPairs := [] }

/-- Model of `Values.toVariadic` (companion file lines 190-202): collect the
keys, sort them with `sort.Strings`, then for each key append `key, v[key]`
to the flat result.  Insertion sort is used here: with a total order it
computes the same sorted permutation as Go's `sort.Strings`.  The `none`
branch of the match is unreachable, since every sorted key is a key of `v`. -/
def toVariadic {V : Type} (v : Values V) : List (String ⊕ V) :=
  (List.insertionSort (· ≤ ·) (keysOf v)).flatMap (fun k =>
    match getF v k with
    | some x => [Sum.inl k, Sum.inr x]
    | none => [])

/-- Re-serialization of a flat alternating `[k1, v1, k2, v2, ...]` sequence
back into a mapping (the round-trip direction of the spec's C1 property). -/
def fromVariadic {V : Type} : List (String ⊕ V) → Option (Values V)
  | [] => some []
  | Sum.inl k :: Sum.inr x :: rest => (fromVariadic rest).map (fun m => (k, x) :: m)
  | Sum.inl _ :: Sum.inl _ :: _ => none
  | Sum.inr _ :: _ => none
  | [Sum.inl _] => none

/-- The keys of a flat alternating sequence, in order of appearance. -/
def inlKeys {V : Type} (l : List (String ⊕ V)) : List String :=
  l.filterMap (fun s => match s with | Sum.inl k => some k | Sum.inr _ => none)

/-- An entry handed to the zap backend: the sugared logger passes the
message together with its accumulated fixed pairs followed by the
call-site pairs. -/
structure ZapEntry (V : Type) where
  config : ZapConfig
  level : String
  msg : String
  pairs : List (String ⊕ V)
  deriving DecidableEq, Repr

/-- Shared body of the four level methods of `ZapLogger` (zap.go lines
43-76): `keyAndvalues` is the concatenation of `value.toVariadic()` over
the bundles, and the sugared backend call receives the logger's fixed
pairs followed by `keyAndvalues`. -/
def ZapLogger.emitWith {V : Type} (z : ZapLogger V) (level msg : String)
    (values : List (Values V)) : ZapEntry V :=
  { config := z.config, level := level, msg := msg,
    pairs := z.fixedPairs ++ values.flatMap toVariadic }

/-- Model of `ZapLogger.Debug` (zap.go lines 43-49). -/
def ZapLogger.Debug {V : Type} (z : ZapLogger V) (msg : String)
    (values : List (Values V)) : ZapEntry V :=
  z.emitWith "debug" msg values

/-- Model of `ZapLogger.Error` (zap.go lines 52-58). -/
def ZapLogger.Error {V : Type} (z : ZapLogger V) (msg : String)
    (values : List (Values V)) : ZapEntry V :=
  z.emitWith "error" msg values

/-- Model of `ZapLogger.Info` (zap.go lines 61-67). -/
def ZapLogger.Info {V : Type} (z : ZapLogger V) (msg : String)
    (values : List (Values V)) : ZapEntry V :=
  z.emitWith "info" msg values

/-- Model of `ZapLogger.Warn` (zap.go lines 70-76). -/
def ZapLogger.Warn {V : Type} (z : ZapLogger V) (msg : String)
    (values : List (Values V)) : ZapEntry V :=
  z.emitWith "warn" msg values

/-- Model of `ZapLogger.WithValues` (zap.go lines 79-81):
`zap.SugaredLogger.With` returns a new logger whose accumulated context is
the parent's followed by the supplied pairs; the parent is untouched. -/
def ZapLogger.WithValues {V : Type} (z : ZapLogger V) (values : Values V) :
    ZapLogger V :=
  { z with fixedPairs := z.fixedPairs ++ toVariadic values }

/-- Model of a `context.Context` chain as used by this package: the source
stores at most the one private `contextKey`, whose value is always a
`Logger`, so each `context.WithValue` node carries a logger. -/
inductive Ctx (V : Type)
  | background
  | withLoggerValue (parent : Ctx V) (logger : ZapLogger V)
  deriving DecidableEq, Repr

/-- Lookup of `ctx.Value(contextKey).(Logger)`: the innermost binding. -/
def Ctx.valueLogger {V : Type} : Ctx V → Option (ZapLogger V)
  | .background => none
  | .withLoggerValue _ l => some l

/-- The parent scope a `context.WithValue` node was derived from. -/
def Ctx.parentOf {V : Type} : Ctx V → Option (Ctx V)
  | .background => none
  | .withLoggerValue parent _ => some parent

/-- Model of `FromContext` (zap.go lines 131-138): the bound logger if one
is present, otherwise `NewZapLogger(SetFormat("json"))`. -/
def FromContext {V : Type} (ctx : Ctx V) : ZapLogger V :=
  match ctx.valueLogger with
  | some l => l
  | none => NewZapLogger V [SetFormat "json"]

/-- Model of `WithContext` (zap.go lines 143-148): derive a child through
`WithValues` when `values` is non-empty, then bind the logger into a new
context node on top of `ctx`. -/
def WithContext {V : Type} (ctx : Ctx V) (logger : ZapLogger V)
    (values : Values V) : Ctx V :=
  let logger := if values.length > 0 then logger.WithValues values else logger
  Ctx.withLoggerValue ctx logger

end V2

namespace LoggerPkg

/-! Definitions for `src/unnamed/part_000` : package `logger`, the
logrus-backed `ContextLogger`. -/

/-- The logrus severity levels.  `Level.val` below gives their numeric
order (PanicLevel = 0 is the most severe, TraceLevel = 6 the least). -/
inductive Level
  | PanicLevel
  | FatalLevel
  | ErrorLevel
  | WarnLevel
  | InfoLevel
  | DebugLevel
  | TraceLevel
  deriving DecidableEq, Repr

/-- The numeric value logrus assigns to each level. -/
def Level.val : Level → Nat
  | .PanicLevel => 0
  | .FatalLevel => 1
  | .ErrorLevel => 2
  | .WarnLevel => 3
  | .InfoLevel => 4
  | .DebugLevel => 5
  | .TraceLevel => 6

/-- logrus `Logger.IsLevelEnabled`: an entry is emitted when its level is
at most the logger's configured level. -/
def levelEnabled (loggerLevel entryLevel : Level) : Bool :=
  entryLevel.val ≤ loggerLevel.val

/-- Constant `TextFormat Format = "TEXT"` (part_000 line 23). -/
def TextFormat : String := "TEXT"

/-- Constant `JSONFormat Format = "JSON"` (part_000 line 25). -/
def JSONFormat : String := "JSON"

/-- The logrus formatters the source installs, by configuration site. -/
inductive Formatter
  | textDefault
  | textFullTimestamp (timestampFormat : String)
  | json
  | textNoTimestamp
  deriving DecidableEq, Repr

/-- The output sinks the source ever points `logger.Out` at. -/
inductive Out
  | stdout
  | buffer
  deriving DecidableEq, Repr

/-- A syslog hook as built by `lSyslog.NewSyslogHook` (part_000 lines
145-150). -/
structure SyslogHook where
  protocol : String
  addr : String
  threshold : String
  tag : String
  deriving DecidableEq, Repr

/-- The mutable state of the wrapped `logrus.Logger`. -/
structure LogrusState where
  out : Out
  formatter : Formatter
  level : Level
  hooks : List SyslogHook
  deriving DecidableEq, Repr

/-- Model of `ContextLogger` (part_000 lines 29-33).  The in-memory buffer
is identified by the `Out.buffer` sink; its byte content is not tracked. -/
structure ContextLogger where
  logger : LogrusState
  context : Fields String
  deriving DecidableEq, Repr

/-- Model of `getLogrusLevel` (part_000 lines 240-255). -/
def getLogrusLevel (logLevel : String) : Level :=
  if toLowerStr logLevel = "trace" then .TraceLevel
  else if toLowerStr logLevel = "debug" then .DebugLevel
  else if toLowerStr logLevel = "warning" then .WarnLevel
  else if toLowerStr logLevel = "info" then .InfoLevel
  else .InfoLevel

/-- Model of `SetLogFormat` (part_000 lines 159-169). -/
def ContextLogger.SetLogFormat (l : ContextLogger) (format : String) :
    ContextLogger :=
  if format = JSONFormat then
    { l with logger := { l.logger with formatter := .json } }
  else
    { l with logger := { l.logger with
      formatter := .textFullTimestamp "2006-01-02T15:04:05.000" } }

/-- Model of `SetLogLevel` (part_000 lines 172-175). -/
def ContextLogger.SetLogLevel (l : ContextLogger) (logLevel : String) :
    ContextLogger :=
  { l with logger := { l.logger with level := getLogrusLevel logLevel } }

/-- The static context `NewContextLogger` builds (part_000 lines 43-49):
the application name, and the hostname when `os.Hostname` succeeded. -/
def staticContext (application : String) (hostRes : Option String) :
    Fields String :=
  match hostRes with
  | some host => setF [("application", application)] "hostname" host
  | none => [("application", application)]

/-- Model of `NewContextLogger` (part_000 lines 36-61).  `os.Hostname` is an
external call: `hostRes` is its result (`some host` on success).  The
zero-valued `logrus.Logger` field `Level` is `PanicLevel` (0) until
`SetLogLevel` runs. -/
def NewContextLogger (application logLevel : String) (format : String)
    (hostRes : Option String) : ContextLogger :=
  let logger : LogrusState :=
    { out := .stdout, formatter := .textDefault, level := .PanicLevel, hooks := [] }
  let contextLogger : ContextLogger :=
    { logger := logger, context := staticContext application hostRes }
  (contextLogger.SetLogFormat format).SetLogLevel logLevel

/-- An entry emitted through the wrapped logrus logger, together with the
sink and formatter in force when it was written. -/
structure Entry where
  out : Out
  formatter : Formatter
  level : Level
  fields : Fields String
  msg : String
  deriving DecidableEq, Repr

/-- The externally observable events of one `ContextLogger` operation: the
entries written through logrus, and the invocations of the error-capture
sink `CaptureError` with their arguments. -/
inductive Event
  | emit (e : Entry)
  | capture (serviceName : String) (fields : Fields String) (caller msg : String)
      (err : Option String)
  deriving DecidableEq, Repr

/-- How control leaves an operation: normally, through `os.Exit` (logrus
`Entry.Fatal`), or through a Go `panic` (logrus `Entry.Panic`). -/
inductive Outcome
  | ok
  | exited
  | panicked
  deriving DecidableEq, Repr

/-- The result of running one `ContextLogger` operation. -/
structure OpResult where
  state : ContextLogger
  events : List Event
  outcome : Outcome
  deriving DecidableEq, Repr

/-- Model of `prepareContext` (part_000 lines 257-270): it redirects
`l.logger.Out` to the buffer, installs the timestamp-less text formatter,
and builds a fresh field map by copying `customFields` and then `context`
into it.  It returns the updated logger state together with the fields. -/
def ContextLogger.prepareContext (l : ContextLogger) (context : Fields String)
    (customFields : Fields String) : ContextLogger × Fields String :=
  let l' := { l with logger :=
    { l.logger with out := .buffer, formatter := .textNoTimestamp } }
  (l', writeAll (writeAll [] customFields) context)

/-- Model of the private `log` dispatch (part_000 lines 272-289) combined
with the logrus level-method semantics: the entry is written when its
level is enabled; `Entry.Fatal` then calls `Exit(1)` unconditionally, and
`Entry.Panic` panics whenever the panic level is enabled (it always is,
since `PanicLevel` is the most severe). -/
def logDispatch (st : LogrusState) (fields : Fields String) (level : Level)
    (msg : String) : List Entry × Outcome :=
  let emitted : List Entry :=
    if levelEnabled st.level level then
      [{ out := st.out, formatter := st.formatter, level := level,
         fields := fields, msg := msg }]
    else
      []
  match level with
  | .FatalLevel => (emitted, .exited)
  | .PanicLevel => (emitted, if levelEnabled st.level .PanicLevel then .panicked else .ok)
  | _ => (emitted, .ok)

/-- The merged fields `WithContext` builds (part_000 lines 65-74): the
`method` custom field and the static context through `prepareContext`,
then the `error` field when an error is present. -/
def ContextLogger.withContextFields (l : ContextLogger) (caller : String)
    (err : Option String) : Fields String :=
  let fields := (l.prepareContext l.context [("method", caller)]).2
  match err with
  | some e => setF fields "error" e
  | none => fields

/-- The merged fields `Log` and `Default` build (part_000 lines 89-94 and
129-134). -/
def ContextLogger.logFields (l : ContextLogger) (caller : String) :
    Fields String :=
  (l.prepareContext l.context [("method", caller)]).2

/-- The merged fields `Error` builds (part_000 lines 105-114). -/
def ContextLogger.errorFields (l : ContextLogger) (caller : String)
    (err : Option String) : Fields String :=
  let fields := (l.prepareContext l.context [("method", caller)]).2
  match err with
  | some e => setF fields "error" e
  | none => fields

/-- The merged fields `InvalidParameter` builds (part_000 lines 191-201):
the custom map holds both `method` and `parameter`. -/
def ContextLogger.invalidParameterFields (l : ContextLogger)
    (caller parameter : String) (err : Option String) : Fields String :=
  let fields :=
    (l.prepareContext l.context [("method", caller), ("parameter", parameter)]).2
  match err with
  | some e => setF fields "error" e
  | none => fields

/-- The merged fields `InvalidRequestBody` builds (part_000 lines 213-222). -/
def ContextLogger.invalidRequestBodyFields (l : ContextLogger)
    (caller : String) (err : Option String) : Fields String :=
  let fields := (l.prepareContext l.context [("method", caller)]).2
  match err with
  | some e => setF fields "error" e
  | none => fields

/-- The application name `l.context["application"].(string)` used as the
service name of a capture (part_000 lines 83 and 123); the key is always
present for a constructed logger. -/
def ContextLogger.applicationName (l : ContextLogger) : String :=
  (getF l.context "application").getD ""

/-- Model of `WithContext` (part_000 lines 64-85).  The `context Context`
parameter of the source is accepted and ignored, exactly as in the source,
which never reads it.  The capture-sink call on lines 82-84 is reached
only when the `log` dispatch returns normally. -/
def ContextLogger.WithContext (l : ContextLogger) (level : Level)
    (caller entry : String) (_contextArg : Fields String) (err : Option String) :
    OpResult :=
  let l' := (l.prepareContext l.context [("method", caller)]).1
  let fields := l.withContextFields caller err
  let (entries, outcome) := logDispatch l'.logger fields level entry
  let events := entries.map Event.emit
  match outcome with
  | .ok =>
    if level = .ErrorLevel ∨ level = .FatalLevel ∨ level = .PanicLevel then
      { state := l',
        events := events ++ [Event.capture l.applicationName fields caller entry err],
        outcome := .ok }
    else
      { state := l', events := events, outcome := .ok }
  | o => { state := l', events := events, outcome := o }

/-- Model of `Log` (part_000 lines 88-101). -/
def ContextLogger.Log (l : ContextLogger) (level : Level)
    (caller entry : String) : OpResult :=
  let l' := (l.prepareContext l.context [("method", caller)]).1
  let fields := l.logFields caller
  let (entries, outcome) := logDispatch l'.logger fields level entry
  { state := l', events := entries.map Event.emit, outcome := outcome }

/-- Model of `Error` (part_000 lines 104-125); same structure as
`WithContext` without the ignored context argument. -/
def ContextLogger.Error (l : ContextLogger) (level : Level)
    (caller entry : String) (err : Option String) : OpResult :=
  let l' := (l.prepareContext l.context [("method", caller)]).1
  let fields := l.errorFields caller err
  let (entries, outcome) := logDispatch l'.logger fields level entry
  let events := entries.map Event.emit
  match outcome with
  | .ok =>
    if level = .ErrorLevel ∨ level = .FatalLevel ∨ level = .PanicLevel then
      { state := l',
        events := events ++ [Event.capture l.applicationName fields caller entry err],
        outcome := .ok }
    else
      { state := l', events := events, outcome := .ok }
  | o => { state := l', events := events, outcome := o }

/-- Model of `Default` (part_000 lines 128-141); identical in behavior to
`Log`. -/
def ContextLogger.Default (l : ContextLogger) (level : Level)
    (caller entry : String) : OpResult :=
  let l' := (l.prepareContext l.context [("method", caller)]).1
  let fields := l.logFields caller
  let (entries, outcome) := logDispatch l'.logger fields level entry
  { state := l', events := entries.map Event.emit, outcome := outcome }

/-- Model of `InvalidParameter` (part_000 lines 190-208): logs the fixed
message "invalid parameter"; no capture-sink call. -/
def ContextLogger.InvalidParameter (l : ContextLogger) (level : Level)
    (caller parameter : String) (err : Option String) : OpResult :=
  let l' :=
    (l.prepareContext l.context [("method", caller), ("parameter", parameter)]).1
  let fields := l.invalidParameterFields caller parameter err
  let (entries, outcome) := logDispatch l'.logger fields level "invalid parameter"
  { state := l', events := entries.map Event.emit, outcome := outcome }

/-- Model of `InvalidRequestBody` (part_000 lines 212-229): logs the fixed
message "invalid request body"; no capture-sink call. -/
def ContextLogger.InvalidRequestBody (l : ContextLogger) (level : Level)
    (caller : String) (err : Option String) : OpResult :=
  let l' := (l.prepareContext l.context [("method", caller)]).1
  let fields := l.invalidRequestBodyFields caller err
  let (entries, outcome) := logDispatch l'.logger fields level "invalid request body"
  { state := l', events := entries.map Event.emit, outcome := outcome }

/-- Model of `AddSyslogHook` (part_000 lines 144-156).
`lSyslog.NewSyslogHook("udp", host+":"+port, syslog.LOG_DEBUG, "")` dials
the network; `dialErr` is the outcome of that external call (`none` on
success).  On success the hook is appended; on failure the source calls
`l.logger.Printf`, which in logrus emits an info-level entry with no
fields, and leaves the hooks untouched.  The method has no return value
and never panics. -/
def ContextLogger.AddSyslogHook (l : ContextLogger) (host port : String)
    (dialErr : Option String) : OpResult :=
  match dialErr with
  | none =>
    { state := { l with logger := { l.logger with hooks :=
        l.logger.hooks ++ [{ protocol := "udp", addr := host ++ ":" ++ port,
                             threshold := "LOG_DEBUG", tag := "" }] } },
      events := [], outcome := .ok }
  | some e =>
    let (entries, outcome) := logDispatch l.logger [] .InfoLevel
      ("Could not hook to syslog, err " ++ e)
    { state := l, events := entries.map Event.emit, outcome := outcome }

/-- The number of capture-sink invocations among the events of an
operation. -/
def captureCount (events : List Event) : Nat :=
  events.countP (fun e => match e with | .capture _ _ _ _ _ => true | _ => false)

/-- The number of emitted entries at a given level among the events. -/
def emitCountAt (events : List Event) (level : Level) : Nat :=
  events.countP (fun e => match e with | .emit en => en.level = level | _ => false)

/-- The merge order the spec claims (C3): static context first, then the
method/caller field, then the error field, then the parameter field, each
write overwriting any earlier binding of the same key (last-write-wins). -/
def specOrderFields (context : Fields String) (caller : String)
    (err : Option String) (parameter : Option String) : Fields String :=
  let m := writeAll [] context
  let m := setF m "method" caller
  let m := match err with | some e => setF m "error" e | none => m
  match parameter with | some p => setF m "parameter" p | none => m

/-- The merged map the code builds, as a function of the constructor and
call inputs: the custom fields (method, optionally parameter) are written
first, then the static context, then the error — the write order of
`prepareContext` followed by the conditional error assignment. -/
def mergedCodeFields (application : String) (hostRes : Option String)
    (caller : String) (err : Option String) (parameterOpt : Option String) :
    Fields String :=
  let custom : Fields String :=
    match parameterOpt with
    | some p => [("method", caller), ("parameter", p)]
    | none => [("method", caller)]
  let m := writeAll (writeAll [] custom) (staticContext application hostRes)
  match err with
  | some e => setF m "error" e
  | none => m

/-- Checks that every entry emitted among the events was written to the
in-memory buffer with the timestamp-less text formatter. -/
def allEmitsBuffered (events : List Event) : Bool :=
  events.all (fun ev =>
    match ev with
    | .emit en => decide (en.out = Out.buffer ∧ en.formatter = Formatter.textNoTimestamp)
    | .capture _ _ _ _ _ => true)

end LoggerPkg

namespace Sentry

/-! Definitions for `src/logger/sentry.go` : the Sentry adapter. -/

/-- The slice of a Sentry scope that `CaptureError` touches: named context
blocks and string tags. -/
structure Scope (V : Type) where
  contexts : Fields (Fields V)
  tags : Fields String
  deriving DecidableEq, Repr

/-- Model of `sentry.Scope.SetContext`: (re)binds one named context block. -/
def Scope.SetContext {V : Type} (s : Scope V) (name : String)
    (block : Fields V) : Scope V :=
  { s with contexts := setF s.contexts name block }

/-- Model of `sentry.Scope.SetTag`. -/
def Scope.SetTag {V : Type} (s : Scope V) (key value : String) : Scope V :=
  { s with tags := setF s.tags key value }

/-- The Sentry client calls `CaptureError` performs, in order. -/
inductive Action (V : Type)
  | capturedException (err : String)
  | capturedMessage (msg : String)
  | flush (seconds : Nat)
  deriving DecidableEq, Repr

/-- Model of `CaptureError` (sentry.go lines 24-43), verbatim: the
`ConfigureScope` closure loops over `fields` and on every iteration calls
`scope.SetContext("log", map[string]interface{}{k: v})` with the
single-pair map of that iteration, then sets the `method` and
`service-name` tags; an exception is captured only when `err` is non-nil;
the message is always captured; the deferred `sentry.Flush(2 * time.Second)`
runs last, before the function returns.  `fields` is iterated in list
order (Go randomizes map iteration order).  The function returns nothing
and propagates no failure. -/
def CaptureError {V : Type} (serviceName : String) (fields : Fields V)
    (caller entry : String) (err : Option String) (scope : Scope V) :
    Scope V × List (Action V) :=
  let scope := fields.foldl (fun s p => s.SetContext "log" [(p.1, p.2)]) scope
  let scope := (scope.SetTag "method" caller).SetTag "service-name" serviceName
  let exceptionActs : List (Action V) :=
    match err with
    | some e => [.capturedException e]
    | none => []
  (scope, exceptionActs ++ [.capturedMessage entry, .flush 2])

end Sentry

/-! Helper lemmas about the map model. -/

theorem getF_append {V : Type} (m₁ m₂ : Fields V) (k : String) :
    getF (m₁ ++ m₂) k = ((getF m₁ k).orElse (fun _ => getF m₂ k)) := by
  induction m₁ with
  | nil => simp [getF]
  | cons p rest ih =>
    by_cases h : p.1 = k <;> simp [getF, h, ih]

theorem getF_filter_ne {V : Type} (m : Fields V) (k₀ k : String) :
    getF (m.filter (fun p => p.1 ≠ k₀)) k = if k₀ = k then none else getF m k := by
  induction m with
  | nil => simp [getF]
  | cons p rest ih =>
    by_cases hp : p.1 = k₀ <;> by_cases hk : k₀ = k <;> by_cases hpk : p.1 = k <;>
      simp_all [List.filter_cons, getF]

theorem getF_setF {V : Type} (m : Fields V) (k₀ k : String) (x : V) :
    getF (setF m k₀ x) k = if k₀ = k then some x else getF m k := by
  rw [setF, getF_append, getF_filter_ne]
  by_cases hk : k₀ = k <;> cases hm : getF m k <;>
    simp [getF, hk, Option.orElse]

theorem getF_isSome_of_mem {V : Type} {m : Fields V} {k : String}
    (h : k ∈ keysOf m) : (getF m k).isSome := by
  induction m with
  | nil => simp [keysOf] at h
  | cons p rest ih =>
    by_cases hp : p.1 = k
    · simp [getF, hp]
    · have : k ∈ keysOf rest := by
        simp [keysOf] at h ⊢
        rcases h with h | h
        · exact absurd h.symm (by simpa using hp)
        · exact h
      simp [getF, hp, ih this]

theorem getF_eq_none_of_not_mem {V : Type} {m : Fields V} {k : String}
    (h : k ∉ keysOf m) : getF m k = none := by
  induction m with
  | nil => rfl
  | cons p rest ih =>
    simp [keysOf] at h
    simp [getF, ih (by simp [keysOf, h.2])]
    intro hk
    exact absurd hk.symm h.1

theorem inlKeys_append {V : Type} (a b : List (String ⊕ V)) :
    V2.inlKeys (a ++ b) = V2.inlKeys a ++ V2.inlKeys b := by
  simp [V2.inlKeys, List.filterMap_append]

theorem inlKeys_flatMap_pairs {V : Type} (v : V2.Values V) :
    ∀ ks : List String, (∀ k ∈ ks, k ∈ keysOf v) →
      V2.inlKeys (ks.flatMap (fun k =>
        match getF v k with
        | some x => [Sum.inl k, Sum.inr x]
        | none => [])) = ks := by
  intro ks
  induction ks with
  | nil => intro _; simp [V2.inlKeys]
  | cons k rest ih =>
    intro h
    obtain ⟨x, hx⟩ := Option.isSome_iff_exists.mp (getF_isSome_of_mem (h k (by simp)))
    have hrest := ih (fun k' hk' => h k' (by simp [hk']))
    simp only [V2.inlKeys] at hrest ⊢
    simp [List.flatMap_cons, List.filterMap_append, hx, hrest]

theorem fromVariadic_flatMap {V : Type} (v : V2.Values V) :
    ∀ ks : List String, (∀ k ∈ ks, k ∈ keysOf v) →
      V2.fromVariadic (ks.flatMap (fun k =>
        match getF v k with
        | some x => [Sum.inl k, Sum.inr x]
        | none => [])) =
        some (ks.flatMap (fun k =>
          match getF v k with
          | some x => [(k, x)]
          | none => [])) := by
  intro ks
  induction ks with
  | nil => intro _; simp [V2.fromVariadic]
  | cons k rest ih =>
    intro h
    obtain ⟨x, hx⟩ := Option.isSome_iff_exists.mp (getF_isSome_of_mem (h k (by simp)))
    have hrest := ih (fun k' hk' => h k' (by simp [hk']))
    simp [List.flatMap_cons, hx, V2.fromVariadic, hrest]

theorem getF_flatMap_pairs {V : Type} (v : V2.Values V) (k : String) :
    ∀ ks : List String, (∀ k' ∈ ks, k' ∈ keysOf v) →
      getF (ks.flatMap (fun k' =>
        match getF v k' with
        | some x => [(k', x)]
        | none => [])) k =
        if k ∈ ks then getF v k else none := by
  intro ks
  induction ks with
  | nil => intro _; simp [getF]
  | cons k₀ rest ih =>
    intro h
    obtain ⟨x₀, hx₀⟩ := Option.isSome_iff_exists.mp (getF_isSome_of_mem (h k₀ (by simp)))
    have hrest := ih (fun k' hk' => h k' (by simp [hk']))
    by_cases hk : k₀ = k
    · subst hk
      simp [List.flatMap_cons, hx₀, getF]
    · have hk' : ¬k = k₀ := fun hkk => hk hkk.symm
      simp [List.flatMap_cons, hx₀, getF, hk, hrest, List.mem_cons, hk']

theorem chain_lt_of_sorted_nodup (l : List String)
    (hs : List.Sorted (· ≤ ·) l) (hn : l.Nodup) : List.Chain' (· < ·) l :=
  ((List.Pairwise.and hs hn).imp (fun h => lt_of_le_of_ne h.1 h.2)).chain'

/-- C1: for every mapping, `toVariadic` yields a flat alternating sequence
whose keys are in strictly ascending lexicographic order, the empty
mapping yields the empty sequence, and re-serializing the resulting pairs
back into a mapping reconstructs the original mapping exactly. -/
theorem toVariadic_ordered_roundtrip {V : Type} (v : V2.Values V)
    (hnd : (keysOf v).Nodup) :
    List.Chain' (· < ·) (V2.inlKeys (V2.toVariadic v)) ∧
    V2.toVariadic ([] : V2.Values V) = [] ∧
    ∃ w, V2.fromVariadic (V2.toVariadic v) = some w ∧
      ∀ k, getF w k = getF v k := by
  have hmem : ∀ k ∈ List.insertionSort (· ≤ ·) (keysOf v), k ∈ keysOf v :=
    fun k hk => (List.perm_insertionSort _ _).mem_iff.mp hk
  refine ⟨?_, rfl, ?_⟩
  · rw [V2.toVariadic, inlKeys_flatMap_pairs v _ hmem]
    exact chain_lt_of_sorted_nodup _ (List.sorted_insertionSort _ _)
      ((List.perm_insertionSort _ _).nodup_iff.mpr hnd)
  · rw [V2.toVariadic]
    refine ⟨_, fromVariadic_flatMap v _ hmem, ?_⟩
    intro k
    rw [getF_flatMap_pairs v k _ hmem]
    by_cases hk : k ∈ List.insertionSort (· ≤ ·) (keysOf v)
    · rw [if_pos hk]
    · have hnv : k ∉ keysOf v :=
        fun hm => hk ((List.perm_insertionSort _ _).mem_iff.mpr hm)
      rw [if_neg hk]
      exact (getF_eq_none_of_not_mem hnv).symm

/-- Witness for C1 at the concrete two-key mapping
`{"b": 1, "a": 2}` over `Nat` values. -/
theorem toVariadic_ordered_roundtrip_witness :
    (keysOf [("b", (1 : Nat)), ("a", 2)]).Nodup ∧
    (List.Chain' (· < ·) (V2.inlKeys (V2.toVariadic [("b", (1 : Nat)), ("a", 2)])) ∧
     V2.toVariadic ([] : V2.Values Nat) = [] ∧
     ∃ w, V2.fromVariadic (V2.toVariadic [("b", (1 : Nat)), ("a", 2)]) = some w ∧
       ∀ k, getF w k = getF [("b", (1 : Nat)), ("a", 2)] k) :=
  ⟨by decide, toVariadic_ordered_roundtrip _ (by decide)⟩

/-- C4: evaluation of `SetFormat`.  At format "json" (also the upper-case
"JSON", showing case-insensitivity) the resulting configuration keeps the
lowercase level encoder and epoch time encoder, but its encoding is
"console", never the machine-readable "json" the claim states: the local
`encoding` variable of `SetFormat` is fixed to "console" before the format
is inspected.  Any other format yields console encoding with the
capital-color level encoder, as claimed. -/
theorem setFormat_json_eval :
    (V2.newZapLogger [V2.SetFormat "json"]).encoding = "console" ∧
    (V2.newZapLogger [V2.SetFormat "json"]).encoding ≠ "json" ∧
    (V2.newZapLogger [V2.SetFormat "json"]).encoderConfig.encodeLevel = .lowercase ∧
    (V2.newZapLogger [V2.SetFormat "json"]).encoderConfig.encodeTime = .epoch ∧
    (V2.newZapLogger [V2.SetFormat "JSON"]).encoding = "console" ∧
    (V2.newZapLogger [V2.SetFormat "JSON"]).encoderConfig.encodeLevel = .lowercase ∧
    (V2.newZapLogger [V2.SetFormat "JSON"]).encoderConfig.encodeTime = .epoch ∧
    (V2.newZapLogger [V2.SetFormat "console"]).encoding = "console" ∧
    (V2.newZapLogger [V2.SetFormat "console"]).encoderConfig.encodeLevel = .capitalColor ∧
    (V2.newZapLogger [V2.SetFormat "console"]).encoderConfig.encodeTime = .rfc3339 := by
  decide

/-- C6: evaluation of `FromContext` on an unbound scope.  It returns the
freshly constructed fallback logger `NewZapLogger(SetFormat("json"))`
without consulting any binding and without an error path, but the
fallback's encoding is "console", not the machine-readable encoding the
claim states, because `SetFormat` never writes "json" into the config. -/
theorem fromContext_unbound_eval :
    V2.FromContext (V2.Ctx.background (V := Nat)) =
      V2.NewZapLogger Nat [V2.SetFormat "json"] ∧
    (V2.FromContext (V2.Ctx.background (V := Nat))).fixedPairs = [] ∧
    (V2.FromContext (V2.Ctx.background (V := Nat))).config.encoding = "console" ∧
    (V2.FromContext (V2.Ctx.background (V := Nat))).config.encoding ≠ "json" ∧
    (V2.FromContext (V2.Ctx.background (V := Nat))).config.encoderConfig.encodeLevel
      = .lowercase ∧
    (V2.FromContext (V2.Ctx.background (V := Nat))).config.encoderConfig.encodeTime
      = .epoch := by
  decide

/-- C2: evaluation of the capture-sink behavior on a concrete logger
(application "svc", level "debug", text format, hostname "host1").  At
Error severity both `WithContext` and `Error` invoke the capture sink
exactly once, carrying the application name, the merged fields, the
caller, the message and the error; at Info severity they invoke it zero
times.  At Fatal and Panic severities, however, the sink is invoked zero
times — contrary to the claim — because the `log` dispatch exits the
process (logrus `Entry.Fatal`) or panics (logrus `Entry.Panic`) before
control reaches the capture-sink call on part_000 lines 82-84 / 122-124. -/
theorem capture_sink_level_eval :
    (let l := LoggerPkg.NewContextLogger "svc" "debug" LoggerPkg.TextFormat (some "host1")
     LoggerPkg.captureCount (l.WithContext .ErrorLevel "c" "m" [] (some "boom")).events = 1 ∧
     (l.WithContext .ErrorLevel "c" "m" [] (some "boom")).events.getLast? =
       some (.capture "svc"
         [("method", "c"), ("application", "svc"), ("hostname", "host1"), ("error", "boom")]
         "c" "m" (some "boom")) ∧
     (l.WithContext .ErrorLevel "c" "m" [] (some "boom")).outcome = .ok ∧
     LoggerPkg.captureCount (l.WithContext .InfoLevel "c" "m" [] none).events = 0 ∧
     LoggerPkg.captureCount (l.Error .ErrorLevel "c" "m" (some "boom")).events = 1 ∧
     LoggerPkg.captureCount (l.Error .InfoLevel "c" "m" none).events = 0 ∧
     LoggerPkg.captureCount (l.WithContext .FatalLevel "c" "m" [] (some "boom")).events = 0 ∧
     (l.WithContext .FatalLevel "c" "m" [] (some "boom")).outcome = .exited ∧
     LoggerPkg.captureCount (l.WithContext .PanicLevel "c" "m" [] (some "boom")).events = 0 ∧
     (l.WithContext .PanicLevel "c" "m" [] (some "boom")).outcome = .panicked ∧
     LoggerPkg.captureCount (l.Error .FatalLevel "c" "m" (some "boom")).events = 0 ∧
     LoggerPkg.captureCount (l.Error .PanicLevel "c" "m" (some "boom")).events = 0) := by
  decide

/-- C7: evaluation of `CaptureError` at a two-field map over an empty
scope.  The tags, the exception-iff-error behavior, the unconditional
message capture and the trailing 2-second flush are as claimed, but the
"log" context block ends up holding only the single field written by the
last loop iteration — `{"b": 2}` — not the whole two-field map: each
iteration of the `ConfigureScope` loop overwrites the block with a
one-pair map. -/
theorem captureError_eval :
    (let scope : Sentry.Scope Nat := { contexts := [], tags := [] }
     let res := Sentry.CaptureError "svc" [("a", (1 : Nat)), ("b", 2)] "c" "m" none scope
     getF res.1.contexts "log" = some [("b", 2)] ∧
     getF res.1.contexts "log" ≠ some [("a", (1 : Nat)), ("b", 2)] ∧
     getF res.1.tags "method" = some "c" ∧
     getF res.1.tags "service-name" = some "svc" ∧
     res.2 = [.capturedMessage "m", .flush 2] ∧
     (Sentry.CaptureError "svc" [("a", (1 : Nat)), ("b", 2)] "c" "m" (some "boom") scope).2
       = [.capturedException "boom", .capturedMessage "m", .flush 2]) := by
  decide

theorem context_setLogFormat (l : LoggerPkg.ContextLogger) (f : String) :
    (l.SetLogFormat f).context = l.context := by
  unfold LoggerPkg.ContextLogger.SetLogFormat
  split <;> rfl

theorem context_newContextLogger (app lvl fmt : String) (hostRes : Option String) :
    (LoggerPkg.NewContextLogger app lvl fmt hostRes).context =
      LoggerPkg.staticContext app hostRes := by
  unfold LoggerPkg.NewContextLogger LoggerPkg.ContextLogger.SetLogLevel
  rw [context_setLogFormat]

theorem merge_core (a c : String) (hostRes : Option String)
    (e p : Option String) (k : String) :
    getF (LoggerPkg.mergedCodeFields a hostRes c e p) k =
      getF (LoggerPkg.specOrderFields (LoggerPkg.staticContext a hostRes) c e p) k := by
  rcases hostRes with _ | h <;> rcases e with _ | err <;> rcases p with _ | parm <;>
    simp only [LoggerPkg.mergedCodeFields, LoggerPkg.staticContext,
      LoggerPkg.specOrderFields, writeAll, getF_setF] <;>
  · by_cases h1 : k = "method"
    · simp [h1]
    · by_cases h2 : k = "application"
      · simp [h2]
      · by_cases h3 : k = "hostname"
        · simp [h3]
        · by_cases h4 : k = "error"
          · simp [h4]
          · by_cases h5 : k = "parameter"
            · simp [h5]
            · have g1 : ("method" = k) = False := eq_false fun hh => h1 hh.symm
              have g2 : ("application" = k) = False := eq_false fun hh => h2 hh.symm
              have g3 : ("hostname" = k) = False := eq_false fun hh => h3 hh.symm
              have g4 : ("error" = k) = False := eq_false fun hh => h4 hh.symm
              have g5 : ("parameter" = k) = False := eq_false fun hh => h5 hh.symm
              simp [g1, g2, g3, g4, g5, getF]

theorem withContextFields_eq (app lvl fmt : String) (hostRes : Option String)
    (c : String) (e : Option String) :
    (LoggerPkg.NewContextLogger app lvl fmt hostRes).withContextFields c e =
      LoggerPkg.mergedCodeFields app hostRes c e none := by
  cases e <;>
    simp [LoggerPkg.ContextLogger.withContextFields,
      LoggerPkg.ContextLogger.prepareContext, LoggerPkg.mergedCodeFields,
      context_newContextLogger]

theorem logFields_eq (app lvl fmt : String) (hostRes : Option String)
    (c : String) :
    (LoggerPkg.NewContextLogger app lvl fmt hostRes).logFields c =
      LoggerPkg.mergedCodeFields app hostRes c none none := by
  simp [LoggerPkg.ContextLogger.logFields, LoggerPkg.ContextLogger.prepareContext,
    LoggerPkg.mergedCodeFields, context_newContextLogger]

theorem errorFields_eq (app lvl fmt : String) (hostRes : Option String)
    (c : String) (e : Option String) :
    (LoggerPkg.NewContextLogger app lvl fmt hostRes).errorFields c e =
      LoggerPkg.mergedCodeFields app hostRes c e none := by
  cases e <;>
    simp [LoggerPkg.ContextLogger.errorFields,
      LoggerPkg.ContextLogger.prepareContext, LoggerPkg.mergedCodeFields,
      context_newContextLogger]

theorem invalidParameterFields_eq (app lvl fmt : String) (hostRes : Option String)
    (c parm : String) (e : Option String) :
    (LoggerPkg.NewContextLogger app lvl fmt hostRes).invalidParameterFields c parm e =
      LoggerPkg.mergedCodeFields app hostRes c e (some parm) := by
  cases e <;>
    simp [LoggerPkg.ContextLogger.invalidParameterFields,
      LoggerPkg.ContextLogger.prepareContext, LoggerPkg.mergedCodeFields,
      context_newContextLogger]

theorem invalidRequestBodyFields_eq (app lvl fmt : String) (hostRes : Option String)
    (c : String) (e : Option String) :
    (LoggerPkg.NewContextLogger app lvl fmt hostRes).invalidRequestBodyFields c e =
      LoggerPkg.mergedCodeFields app hostRes c e none := by
  cases e <;>
    simp [LoggerPkg.ContextLogger.invalidRequestBodyFields,
      LoggerPkg.ContextLogger.prepareContext, LoggerPkg.mergedCodeFields,
      context_newContextLogger]

/-- C3: for every logger built by `NewContextLogger` (any application name,
level, format, hostname outcome) and any caller, error and parameter, the
merged field map each of the six logging operations emits agrees, key for
key, with the map obtained by writing in the spec's claimed order
static-context, then method/caller, then error, then parameter, under
last-write-wins.  (The code writes the custom method/parameter fields
first and the static context second, but the two groups' key sets —
{application, hostname} and {method, parameter, error} — are disjoint, so
the resulting maps coincide.)  `withContextFields`, `logFields`,
`errorFields`, `invalidParameterFields` and `invalidRequestBodyFields` are
the field maps built by `WithContext`, `Log`/`Default`, `Error`,
`InvalidParameter` and `InvalidRequestBody` respectively. -/
theorem merge_order_matches_spec (app logLevel format : String)
    (hostRes : Option String) (caller parameter : String)
    (err : Option String) (k : String) :
    (getF ((LoggerPkg.NewContextLogger app logLevel format hostRes).withContextFields
        caller err) k =
      getF (LoggerPkg.specOrderFields (LoggerPkg.staticContext app hostRes)
        caller err none) k) ∧
    (getF ((LoggerPkg.NewContextLogger app logLevel format hostRes).logFields caller) k =
      getF (LoggerPkg.specOrderFields (LoggerPkg.staticContext app hostRes)
        caller none none) k) ∧
    (getF ((LoggerPkg.NewContextLogger app logLevel format hostRes).errorFields
        caller err) k =
      getF (LoggerPkg.specOrderFields (LoggerPkg.staticContext app hostRes)
        caller err none) k) ∧
    (getF ((LoggerPkg.NewContextLogger app logLevel format hostRes).invalidParameterFields
        caller parameter err) k =
      getF (LoggerPkg.specOrderFields (LoggerPkg.staticContext app hostRes)
        caller err (some parameter)) k) ∧
    (getF ((LoggerPkg.NewContextLogger app logLevel format hostRes).invalidRequestBodyFields
        caller err) k =
      getF (LoggerPkg.specOrderFields (LoggerPkg.staticContext app hostRes)
        caller err none) k) := by
  refine ⟨?_, ?_, ?_, ?_, ?_⟩
  · rw [withContextFields_eq app logLevel format hostRes caller err]
    exact merge_core app caller hostRes err none k
  · rw [logFields_eq app logLevel format hostRes caller]
    exact merge_core app caller hostRes none none k
  · rw [errorFields_eq app logLevel format hostRes caller err]
    exact merge_core app caller hostRes err none k
  · rw [invalidParameterFields_eq app logLevel format hostRes caller parameter err]
    exact merge_core app caller hostRes err (some parameter) k
  · rw [invalidRequestBodyFields_eq app logLevel format hostRes caller err]
    exact merge_core app caller hostRes err none k

theorem mem_inlKeys_toVariadic {V : Type} (v : V2.Values V) (k : String) :
    k ∈ V2.inlKeys (V2.toVariadic v) ↔ k ∈ keysOf v := by
  rw [V2.toVariadic, inlKeys_flatMap_pairs v _
    (fun k' hk' => (List.perm_insertionSort _ _).mem_iff.mp hk')]
  exact (List.perm_insertionSort _ _).mem_iff

theorem mem_inlKeys_flatMap {V : Type} (xs : List (V2.Values V)) (k : String) :
    k ∈ V2.inlKeys (xs.flatMap V2.toVariadic) ↔ ∃ u ∈ xs, k ∈ keysOf u := by
  induction xs with
  | nil => simp [V2.inlKeys]
  | cons u rest ih =>
    simp [List.flatMap_cons, inlKeys_append, List.mem_append, ih,
      mem_inlKeys_toVariadic]

/-- C5: `WithValues` builds a child logger whose fixed pairs are the
parent's followed by the ordered pairs of the supplied values (so its key
set is the union of the two), it leaves the configuration unchanged, and
two children derived from the same parent are independent: the entry
logged through the `f₂`-child carries exactly the parent's, `f₂`'s and
the call site's keys, with `f₁` playing no part.  The embedding is pure,
so the parent value itself cannot be mutated by `WithValues`
(`zap.SugaredLogger.With` builds a new logger). -/
theorem withValues_union_independent {V : Type} (z : V2.ZapLogger V)
    (f₁ f₂ : V2.Values V) (msg : String) (callValues : List (V2.Values V)) :
    (z.WithValues f₁).fixedPairs = z.fixedPairs ++ V2.toVariadic f₁ ∧
    (z.WithValues f₁).config = z.config ∧
    (∀ k, k ∈ V2.inlKeys (z.WithValues f₁).fixedPairs ↔
      (k ∈ V2.inlKeys z.fixedPairs ∨ k ∈ keysOf f₁)) ∧
    ((z.WithValues f₂).Info msg callValues).pairs =
      z.fixedPairs ++ V2.toVariadic f₂ ++ callValues.flatMap V2.toVariadic ∧
    (∀ k, k ∈ V2.inlKeys ((z.WithValues f₂).Info msg callValues).pairs ↔
      (k ∈ V2.inlKeys z.fixedPairs ∨ k ∈ keysOf f₂ ∨
        ∃ u ∈ callValues, k ∈ keysOf u)) := by
  refine ⟨rfl, rfl, ?_, ?_, ?_⟩
  · intro k
    simp [V2.ZapLogger.WithValues, inlKeys_append, List.mem_append,
      mem_inlKeys_toVariadic]
  · simp [V2.ZapLogger.Info, V2.ZapLogger.emitWith, V2.ZapLogger.WithValues,
      List.append_assoc]
  · intro k
    simp [V2.ZapLogger.Info, V2.ZapLogger.emitWith, V2.ZapLogger.WithValues,
      inlKeys_append, List.mem_append, mem_inlKeys_toVariadic,
      mem_inlKeys_flatMap, or_assoc]

/-- C8: binding a logger into a scope and retrieving it.  With non-empty
fixed values the bound logger is the `WithValues`-derived child, with empty
values it is the given logger unchanged; the returned scope is a new node
whose parent is the original scope (which the construction leaves intact),
and retrieval on the returned scope yields the bound logger. -/
theorem withContext_bind_retrieve {V : Type} (ctx : V2.Ctx V)
    (l : V2.ZapLogger V) (values : V2.Values V) :
    V2.FromContext (V2.WithContext ctx l values) =
      (if values.length > 0 then l.WithValues values else l) ∧
    (V2.WithContext ctx l values).parentOf = some ctx ∧
    V2.WithContext ctx l values ≠ ctx := by
  refine ⟨?_, rfl, ?_⟩
  · by_cases hv : values.length > 0 <;>
      simp [V2.WithContext, V2.FromContext, V2.Ctx.valueLogger, hv]
  · intro hEq
    have hs := congrArg sizeOf hEq
    simp [V2.WithContext] at hs
    omega

/-- C9 counterexample: on a concrete logger (application "svc", level
"debug") a failed syslog dial makes `AddSyslogHook` emit its local
diagnostic through `logrus.Logger.Printf`, which logs at info level: the
operation emits one info-level entry and zero warn-level entries, so no
"warning entry" is emitted as the claim states. -/
theorem addSyslogHook_no_warn_entry :
    (let l := LoggerPkg.NewContextLogger "svc" "debug" LoggerPkg.TextFormat (some "host1")
     let r := l.AddSyslogHook "bad-host" "514" (some "connection refused")
     LoggerPkg.emitCountAt r.events .WarnLevel = 0 ∧
     LoggerPkg.emitCountAt r.events .InfoLevel = 1 ∧
     r.outcome = .ok) := by
  decide

/-- C9 (amended): `AddSyslogHook` with a failing dial never raises or
aborts, attaches no sink and leaves the state untouched, emits one
info-level diagnostic entry through `Printf` (when the info level is
enabled) and no warn-level entry, and the logger stays functional:
subsequent `Log` calls at Info and Debug return normally.  On a successful
dial it appends a UDP syslog sink at the DEBUG threshold. -/
theorem addSyslogHook_degraded_mode (l : LoggerPkg.ContextLogger)
    (host port errMsg : String) :
    (l.AddSyslogHook host port (some errMsg)).outcome = .ok ∧
    (l.AddSyslogHook host port (some errMsg)).state = l ∧
    LoggerPkg.emitCountAt (l.AddSyslogHook host port (some errMsg)).events
      .WarnLevel = 0 ∧
    (l.AddSyslogHook host port (some errMsg)).events =
      (if LoggerPkg.levelEnabled l.logger.level .InfoLevel then
        [LoggerPkg.Event.emit
          { out := l.logger.out
            formatter := l.logger.formatter
            level := .InfoLevel
            fields := []
            msg := "Could not hook to syslog, err " ++ errMsg }]
      else []) ∧
    ((l.AddSyslogHook host port (some errMsg)).state.Log .InfoLevel "c" "m").outcome
      = .ok ∧
    ((l.AddSyslogHook host port (some errMsg)).state.Log .DebugLevel "c" "m").outcome
      = .ok ∧
    (l.AddSyslogHook host port none).state.logger.hooks =
      l.logger.hooks ++ [{ protocol := "udp", addr := host ++ ":" ++ port,
                           threshold := "LOG_DEBUG", tag := "" }] ∧
    (l.AddSyslogHook host port none).outcome = .ok ∧
    (l.AddSyslogHook host port none).events = [] := by
  refine ⟨rfl, rfl, ?_, ?_, rfl, rfl, rfl, rfl, rfl⟩
  · unfold LoggerPkg.ContextLogger.AddSyslogHook LoggerPkg.logDispatch
    by_cases he : LoggerPkg.levelEnabled l.logger.level .InfoLevel <;>
      simp [he, LoggerPkg.emitCountAt]
  · unfold LoggerPkg.ContextLogger.AddSyslogHook LoggerPkg.logDispatch
    by_cases he : LoggerPkg.levelEnabled l.logger.level .InfoLevel <;>
      simp [he]

/-- C10: every field-preparing operation of the ContextualLogger
(`WithContext`, `Log`, `Error`, `Default`, `InvalidParameter`,
`InvalidRequestBody`) runs `prepareContext`, which unconditionally points
the logger at the in-memory buffer and installs the timestamp-less text
formatter before emitting.  So for any starting state — whatever format a
prior `SetLogFormat` installed and despite the stdout output configured at
construction — the post-call state writes to the buffer in timestamp-less
text, and every entry the call emitted carries the buffer sink and the
timestamp-less text formatter. -/
theorem prepareContext_buffer_redirect (l : LoggerPkg.ContextLogger)
    (level : LoggerPkg.Level) (caller entry parameter : String)
    (ctxArg : Fields String) (err : Option String) :
    ((l.WithContext level caller entry ctxArg err).state.logger.out = .buffer ∧
     (l.WithContext level caller entry ctxArg err).state.logger.formatter
       = .textNoTimestamp ∧
     LoggerPkg.allEmitsBuffered (l.WithContext level caller entry ctxArg err).events
       = true) ∧
    ((l.Log level caller entry).state.logger.out = .buffer ∧
     (l.Log level caller entry).state.logger.formatter = .textNoTimestamp ∧
     LoggerPkg.allEmitsBuffered (l.Log level caller entry).events = true) ∧
    ((l.Error level caller entry err).state.logger.out = .buffer ∧
     (l.Error level caller entry err).state.logger.formatter = .textNoTimestamp ∧
     LoggerPkg.allEmitsBuffered (l.Error level caller entry err).events = true) ∧
    ((l.Default level caller entry).state.logger.out = .buffer ∧
     (l.Default level caller entry).state.logger.formatter = .textNoTimestamp ∧
     LoggerPkg.allEmitsBuffered (l.Default level caller entry).events = true) ∧
    ((l.InvalidParameter level caller parameter err).state.logger.out = .buffer ∧
     (l.InvalidParameter level caller parameter err).state.logger.formatter
       = .textNoTimestamp ∧
     LoggerPkg.allEmitsBuffered (l.InvalidParameter level caller parameter err).events
       = true) ∧
    ((l.InvalidRequestBody level caller err).state.logger.out = .buffer ∧
     (l.InvalidRequestBody level caller err).state.logger.formatter
       = .textNoTimestamp ∧
     LoggerPkg.allEmitsBuffered (l.InvalidRequestBody level caller err).events
       = true) := by
  refine ⟨?_, ?_, ?_, ?_, ?_, ?_⟩
  · rcases level <;>
      simp [LoggerPkg.ContextLogger.WithContext, LoggerPkg.logDispatch,
        LoggerPkg.ContextLogger.prepareContext, LoggerPkg.allEmitsBuffered] <;>
      split <;> (try simp [LoggerPkg.allEmitsBuffered]) <;>
      (intro x hx
       rcases hx with ⟨a, ⟨hc, ha⟩, hxx⟩ | hxx
       · subst hxx; simp [ha]
       · subst hxx; simp)
  · rcases level <;>
      simp [LoggerPkg.ContextLogger.Log, LoggerPkg.logDispatch,
        LoggerPkg.ContextLogger.prepareContext, LoggerPkg.allEmitsBuffered]
  · rcases level <;>
      simp [LoggerPkg.ContextLogger.Error, LoggerPkg.logDispatch,
        LoggerPkg.ContextLogger.prepareContext, LoggerPkg.allEmitsBuffered] <;>
      split <;> (try simp [LoggerPkg.allEmitsBuffered]) <;>
      (intro x hx
       rcases hx with ⟨a, ⟨hc, ha⟩, hxx⟩ | hxx
       · subst hxx; simp [ha]
       · subst hxx; simp)
  · rcases level <;>
      simp [LoggerPkg.ContextLogger.Default, LoggerPkg.logDispatch,
        LoggerPkg.ContextLogger.prepareContext, LoggerPkg.allEmitsBuffered]
  · rcases level <;>
      simp [LoggerPkg.ContextLogger.InvalidParameter, LoggerPkg.logDispatch,
        LoggerPkg.ContextLogger.prepareContext, LoggerPkg.allEmitsBuffered]
  · rcases level <;>
      simp [LoggerPkg.ContextLogger.InvalidRequestBody, LoggerPkg.logDispatch,
        LoggerPkg.ContextLogger.prepareContext, LoggerPkg.allEmitsBuffered]

end Ologs
